import Mathlib

/-!
Verification of the `vox_nav_control::common` core
(`src/vox_nav_control/include/vox_nav_control/common.hpp`).

The C++ free functions are shallowly embedded as Lean functions.  `double`
values are modelled as real numbers; `int` and `size_t` values are modelled
as `ℤ` with the implicit conversions of the source (sign extension to
`size_t`, truncating `double → int` casts) made explicit where the source
relies on them.  Fallible steps of the source — out-of-range vector
accesses and `double → int` casts whose truncated value is not
representable, both undefined behavior in C++ — are modelled with `Option`,
`none` marking an execution the C++ standard leaves undefined.  Helper
routines that live elsewhere in the repository (`vox_nav_utilities`) or in
external libraries (OMPL, PCL) are modelled from the specification's
description of them; each such definition carries a comment saying so.
-/

/-- A `geometry_msgs::msg::PoseStamped` as the core uses it: a 3-D position
together with an orientation.  Modelled from the spec: the orientation
quaternion is only ever consumed through `getRPYfromMsgQuaternion`
(a `vox_nav_utilities` helper not in the sources), which extracts its yaw
angle, so the orientation is represented directly by its yaw. -/
structure PoseStamped where
  x : ℝ
  y : ℝ
  z : ℝ
  yaw : ℝ


/-- The `States` struct of the source: an MPC state (position, heading,
linear velocity). -/
structure States where
  x : ℝ
  y : ℝ
  z : ℝ
  psi : ℝ
  v : ℝ


/-- The `ControlInput` struct of the source. -/
structure ControlInput where
  acc : ℝ
  df : ℝ


/-- The `Parameters` struct of the source.  The cost-weight vectors `Q`, `R`
and the flags are carried along for fidelity; the embedded functions only
read `N`, `L_F`, `V_MIN` and `V_MAX`, exactly as the source ones do. -/
structure Parameters where
  N : ℤ
  DT : ℝ
  L_F : ℝ
  L_R : ℝ
  V_MIN : ℝ
  V_MAX : ℝ
  A_MIN : ℝ
  A_MAX : ℝ
  DF_MIN : ℝ
  DF_MAX : ℝ
  A_DOT_MIN : ℝ
  A_DOT_MAX : ℝ
  DF_DOT_MIN : ℝ
  DF_DOT_MAX : ℝ
  Q : List ℝ
  R : List ℝ
  debug_mode : Bool
  params_configured : Bool
  max_obstacles : ℤ
  robot_radius : ℝ
  obstacle_cost : ℝ
  full_ackerman : Bool

/-- The default values assigned by the `Parameters()` constructor of the
source. -/
def defaultParameters : Parameters :=
  { N := 10, DT := 0.1, L_F := 0.65, L_R := 0.65,
    V_MIN := -10.0, V_MAX := 10.0, A_MIN := -1.0, A_MAX := 1.0,
    DF_MIN := -0.5, DF_MAX := 0.5, A_DOT_MIN := -1.0, A_DOT_MAX := 1.0,
    DF_DOT_MIN := -0.5, DF_DOT_MAX := 0.5,
    Q := [100.0, 100.0, 10.0, 0.1], R := [10.0, 10.0],
    debug_mode := true, params_configured := false,
    max_obstacles := 1, robot_radius := 0.5, obstacle_cost := 1.0,
    full_ackerman := false }

/-- A `vox_nav_msgs::msg::Object` as `trimObstaclesToN` uses it: the pose
position and the solid-primitive shape (type tag and dimension list).  The
remaining message fields are never read nor written by the embedded
function and are omitted. -/
structure Object where
  x : ℝ
  y : ℝ
  z : ℝ
  shape_type : ℕ
  shape_dimensions : List ℝ


/-- The `shape_msgs::msg::SolidPrimitive::BOX` constant. -/
def BOX : ℕ := 1

/-- A `pcl::PointXYZ`. -/
structure PointXYZ where
  x : ℝ
  y : ℝ
  z : ℝ


/-- Truncation of a real toward zero: the rounding C++ applies when
converting a `double` to an integer type. -/
noncomputable def cppTrunc (x : ℝ) : ℤ :=
  if 0 ≤ x then ⌊x⌋ else -⌊-x⌋

/-- A C++ `double → int` conversion ([conv.fpint]): the value is truncated
toward zero, and the behavior is undefined (`none`) when the truncated
value cannot be represented in `int` — in particular when the operand is
an infinity or NaN. -/
noncomputable def doubleToInt (x : ℝ) : Option ℤ :=
  if -(2 ^ 31) ≤ cppTrunc x ∧ cppTrunc x ≤ 2 ^ 31 - 1 then some (cppTrunc x) else none

/-- The value of an `int` expression read as `size_t`, as C++ converts it in
a mixed `int`/`size_t` comparison: sign extension followed by
reinterpretation, i.e. reduction modulo `2^64`. -/
def sizeT (a : ℤ) : ℤ := a % (2 ^ 64)

/-- A `size_t` value converted back to `int` (as in
`local_goal_state_index = reference_traj.poses.size() - 1`): wraps modulo
`2^32` into the signed range, the behavior of every mainstream
implementation. -/
def intOfSizeT (a : ℤ) : ℤ := (a + 2 ^ 31) % (2 ^ 32) - 2 ^ 31

/-- The C library function `std::fmod x y`: `x - y * trunc (x / y)`. -/
noncomputable def cppFmod (x y : ℝ) : ℝ := x - y * cppTrunc (x / y)

/-- C++ `std::vector` indexing with an `int` index: defined exactly for
indices inside the vector, undefined behavior (`none`) otherwise. -/
def idx {α : Type} (l : List α) (i : ℤ) : Option α :=
  if 0 ≤ i then l.get? i.toNat else none

/-- Modelled from the spec: `vox_nav_utilities::getEuclidianDistBetweenPoses`
(repository code outside the provided sources), the planar Euclidean
distance between two poses. -/
noncomputable def getEuclidianDistBetweenPoses (a b : PoseStamped) : ℝ :=
  Real.sqrt ((a.x - b.x) ^ 2 + (a.y - b.y) ^ 2)

/-- Modelled from the spec: `vox_nav_utilities::getEuclidianDistBetweenPoints`
(repository code outside the provided sources), the planar Euclidean
distance between an obstacle's position and the robot position. -/
noncomputable def getEuclidianDistBetweenPoints (o : Object) (robot : PoseStamped) : ℝ :=
  Real.sqrt ((o.x - robot.x) ^ 2 + (o.y - robot.y) ^ 2)

/-- The scan loop of `nearestStateIndex`.  The best-distance accumulator is
an `int` in the source (`int closest_state_distance = 10000.0;`), so each
update truncates the stored distance toward zero; the comparison promotes
the stored `int` back to `double`. -/
noncomputable def nearestAux (robot : PoseStamped) :
    List PoseStamped → ℕ → ℤ → ℤ → ℤ
  | [], _, bestIdx, _ => bestIdx
  | p :: rest, i, bestIdx, bestDist =>
    let d := getEuclidianDistBetweenPoses p robot
    if d < (bestDist : ℝ) then
      nearestAux robot rest (i + 1) (i : ℤ) (cppTrunc d)
    else
      nearestAux robot rest (i + 1) bestIdx bestDist

/-- The source function `nearestStateIndex`: linear scan for the reference-path
pose nearest to the robot, starting from the sentinel index `-1` and the
sentinel distance `10000` (stored in an `int`). -/
noncomputable def nearestStateIndex (reference_traj : List PoseStamped)
    (curr_robot_pose : PoseStamped) : ℤ :=
  nearestAux curr_robot_pose reference_traj 0 (-1) 10000

/-- The source function `regulateMaxSpeed`.  The C++ function overwrites
`computed_velocity.linear.x` in place; the embedding returns the new value
of that field. -/
noncomputable def regulateMaxSpeed (v : ℝ) (mpc_parameters : Parameters) : ℝ :=
  if v > mpc_parameters.V_MAX then mpc_parameters.V_MAX
  else if v < mpc_parameters.V_MIN then mpc_parameters.V_MIN
  else v

/-- The arc-length accumulation loop of `getLocalInterpolatedReferenceStates`
(`for i = 1; i < poses.size(); i++ : length += dist(poses[i], poses[i-1])`). -/
noncomputable def pathEuclidianLength : List PoseStamped → ℝ
  | a :: b :: rest => getEuclidianDistBetweenPoses b a + pathEuclidianLength (b :: rest)
  | _ => 0

/-- The `interpolation_step_size` value of `getLocalInterpolatedReferenceStates`:
the total path arc length divided by the pose count. -/
noncomputable def interpolationStepSize (reference_traj : List PoseStamped) : ℝ :=
  pathEuclidianLength reference_traj / (reference_traj.length : ℝ)

/-- The `states_to_see_horizon` value of the source:
`int states_to_see_horizon = global_plan_look_ahead_distance / interpolation_step_size`.
The source performs the division with no guard on the divisor; when the
step size is zero the IEEE quotient is an infinity (or NaN for a `0/0`),
whose conversion to `int` is undefined behavior, hence `none`. -/
noncomputable def lookaheadCount (global_plan_look_ahead_distance step : ℝ) : Option ℤ :=
  if step = 0 then none else doubleToInt (global_plan_look_ahead_distance / step)

/-- The clamp `if (local_goal_state_index >= reference_traj.poses.size() - 1)
local_goal_state_index = reference_traj.poses.size() - 1` of
`getLocalInterpolatedReferenceStates`.  The comparison is between an `int`
and a `size_t`, so the `int` side is converted to `size_t`; a negative
index therefore compares as a huge unsigned value and is clamped too. -/
def clampGe (lg : ℤ) (size : ℕ) : ℤ :=
  if sizeT ((size : ℤ) - 1) ≤ sizeT lg then intOfSizeT (sizeT ((size : ℤ) - 1)) else lg

/-- The clamp `if (local_goal_state_index > reference_traj.poses.size() - 1)`
of `readjustGlobalPlanLocally`; same mixed `int`/`size_t` comparison as
`clampGe` but strict. -/
def clampGt (lg : ℤ) (size : ℕ) : ℤ :=
  if sizeT ((size : ℤ) - 1) < sizeT lg then intOfSizeT (sizeT ((size : ℤ) - 1)) else lg

/-- The local-goal index computed by `getLocalInterpolatedReferenceStates`:
nearest index plus the lookahead count, clamped to the last index. -/
noncomputable def localGoalStateIndex (reference_traj : List PoseStamped)
    (curr_robot_pose : PoseStamped) (global_plan_look_ahead_distance : ℝ) : Option ℤ :=
  (lookaheadCount global_plan_look_ahead_distance (interpolationStepSize reference_traj)).map
    (fun s => clampGe (nearestStateIndex reference_traj curr_robot_pose + s)
      reference_traj.length)

/-- A state of the OMPL `ReedsSheppStateSpace` as the source reads it:
planar position and yaw. -/
structure CurvePt where
  x : ℝ
  y : ℝ
  yaw : ℝ

/-- Uniform parameter blending between two curve anchors. -/
noncomputable def blendCurve (a b : CurvePt) (t : ℝ) : CurvePt :=
  ⟨a.x + t * (b.x - a.x), a.y + t * (b.y - a.y), a.yaw + t * (b.yaw - a.yaw)⟩

/-- Modelled from the spec: `ompl::geometric::PathGeometric::interpolate`
(an external OMPL operation) resamples the two-anchor curvature-bounded
curve into exactly `count` states, uniformly by curve parameter and keeping
both anchors as first and last states; when `count` does not exceed the
current number of states (two), no state is removed.  The geometry between
the anchors is external to the repository and is abstracted as parameter
blending; only the state count and the endpoint anchoring are relied on. -/
noncomputable def interpolateCurve (a b : CurvePt) (count : ℤ) : List CurvePt :=
  if count ≤ 2 then [a, b]
  else
    a :: (((List.range (count.toNat - 2)).map
      (fun (i : ℕ) => blendCurve a b (((i : ℝ) + 1) / ((count.toNat : ℝ) - 1)))) ++ [b])

/-- Conversion of an interpolated curve state into the `States` struct, as
the output loop of `getLocalInterpolatedReferenceStates` performs it: `x`,
`y`, `psi` from the curve state, `v` set to `V_MAX`, `z` left at the
`States()` default `0`. -/
noncomputable def curveToState (mpc_parameters : Parameters) (c : CurvePt) : States :=
  ⟨c.x, c.y, 0, c.yaw, mpc_parameters.V_MAX⟩

/-- The source function `getLocalInterpolatedReferenceStates`.  The unused
`front_axle_pose` computation at its head (its result is never read) and
the `SpaceInformation` plumbing are omitted; the anchor-selection branch,
the index computations and the final resampling follow the source.  `none`
marks executions that are undefined behavior in C++ (unguarded division by
a zero step size, out-of-range pose accesses). -/
noncomputable def getLocalInterpolatedReferenceStates (curr_robot_pose : PoseStamped)
    (mpc_parameters : Parameters) (reference_traj : List PoseStamped)
    (global_plan_look_ahead_distance : ℝ) : Option (List States) :=
  let nearest := nearestStateIndex reference_traj curr_robot_pose
  match localGoalStateIndex reference_traj curr_robot_pose
      global_plan_look_ahead_distance with
  | none => none
  | some lg =>
    let firstAnchorOpt : Option CurvePt :=
      if lg - nearest < mpc_parameters.N then
        some ⟨curr_robot_pose.x, curr_robot_pose.y, curr_robot_pose.yaw⟩
      else
        (idx reference_traj nearest).map (fun p => ⟨p.x, p.y, p.yaw⟩)
    match firstAnchorOpt with
    | none => none
    | some a =>
      match idx reference_traj lg with
      | none => none
      | some g =>
        some ((interpolateCurve a ⟨g.x, g.y, g.yaw⟩ mpc_parameters.N).map
          (curveToState mpc_parameters))

/-- The ghost obstacle pushed by the padding branch of `trimObstaclesToN`:
far-away position `(20000, 20000, 20000)` and a `0.1 × 0.1 × 0.1` box. -/
def ghostObstacle : Object :=
  ⟨20000, 20000, 20000, BOX, [0.1, 0.1, 0.1]⟩

/-- The `distances` vector of `trimObstaclesToN`: per-obstacle distance to
the robot. -/
noncomputable def obstacleDistances (obstacle_tracks : List Object)
    (curr_robot_pose : PoseStamped) : List ℝ :=
  obstacle_tracks.map (fun o => getEuclidianDistBetweenPoints o curr_robot_pose)

/-- The `sorted_indices` vector of `trimObstaclesToN`: the indices
`0, …, |L|-1` ordered by distance to the robot. -/
noncomputable def sortedIndices (obstacle_tracks : List Object)
    (curr_robot_pose : PoseStamped) : List ℕ :=
  (List.range obstacle_tracks.length).insertionSort
    (fun a b => (obstacleDistances obstacle_tracks curr_robot_pose).getD a 0 ≤
      (obstacleDistances obstacle_tracks curr_robot_pose).getD b 0)

/-- The source function `trimObstaclesToN`.  The C++ works on a copy
(`std::make_shared<...>(obstacle_tracks)`) of the const-ref input, so the
embedding is a pure function of the input list.  When fewer than `N`
obstacles are given, ghosts are appended; otherwise the first `N` entries
of `sortedIndices` pick the kept obstacles.  `std::sort` with the strict
comparator `distances[a] < distances[b]` guarantees exactly an output
ordered by the induced total preorder `distances[a] ≤ distances[b]`, ties
in unspecified order; the embedding realizes it with insertion sort on
that preorder. -/
noncomputable def trimObstaclesToN (obstacle_tracks : List Object)
    (curr_robot_pose : PoseStamped) (N : ℕ) : List Object :=
  if obstacle_tracks.length < N then
    obstacle_tracks ++ List.replicate (N - obstacle_tracks.length) ghostObstacle
  else
    ((sortedIndices obstacle_tracks curr_robot_pose).take N).map
      (fun i => obstacle_tracks.getD i ghostObstacle)

/-- The `slice` template of the source: the subvector from index `m` to
index `n` inclusive (`cbegin() + m` up to `cbegin() + n + 1`).  Defined
exactly when `0 ≤ m ≤ n + 1 ≤ size`; anything else dereferences iterators
outside the vector, undefined behavior (`none`). -/
def sliceVector {α : Type} (v : List α) (m n : ℤ) : Option (List α) :=
  if 0 ≤ m ∧ m ≤ n + 1 ∧ n + 1 ≤ (v.length : ℤ) then
    some ((v.drop m.toNat).take (n + 1 - m).toNat)
  else none

/-- Modelled from the spec: `vox_nav_utilities::cropBox` (repository code
outside the provided sources), the external crop-to-box primitive — keeps
exactly the points lying inside the axis-aligned box `[mn, mx]`. -/
noncomputable def cropBox (cloud : List PointXYZ) (mn mx : PointXYZ) : List PointXYZ :=
  cloud.filter (fun p =>
    mn.x ≤ p.x ∧ p.x ≤ mx.x ∧ mn.y ≤ p.y ∧ p.y ≤ mx.y ∧ mn.z ≤ p.z ∧ p.z ≤ mx.z)

/-- Modelled from the spec: `pcl::computeCentroid`, the external centroid
primitive.  The source passes it a default-constructed `pcl::PointXYZ`
(which value-initializes to the origin) as output; PCL leaves that output
untouched when the cloud has no points, so the spec's undefined-centroid
case surfaces as the origin `(0, 0, 0)`. -/
noncomputable def computeCentroid (cloud : List PointXYZ) : PointXYZ :=
  if cloud.length = 0 then ⟨0, 0, 0⟩
  else
    ⟨(cloud.map PointXYZ.x).sum / (cloud.length : ℝ),
     (cloud.map PointXYZ.y).sum / (cloud.length : ℝ),
     (cloud.map PointXYZ.z).sum / (cloud.length : ℝ)⟩

/-- The in-place recentering loop of `readjustGlobalPlanLocally`: for every
pose index in `[a, b]` the lateral and vertical offsets from the centroid
are subtracted (`pose.y -= pose.y - center.y`, `pose.z -= pose.z - center.z`);
poses outside the window are untouched. -/
def recenterLoop (center : PointXYZ) (a b : ℤ) : ℕ → List PoseStamped → List PoseStamped
  | _, [] => []
  | i, p :: rest =>
    (if a ≤ (i : ℤ) ∧ (i : ℤ) ≤ b then
      { p with y := p.y - (p.y - center.y), z := p.z - (p.z - center.z) }
    else p) :: recenterLoop center a b (i + 1) rest

/-- The source function `readjustGlobalPlanLocally`, reduced to its effect on the
shared reference path (the marker/cloud publications and the log calls have
no effect on it and the loop over the cropped cloud's points is dead code —
its writes are commented out in the source).  The returned list is the
final state of the by-reference `reference_traj` argument; `none` marks
executions that are undefined behavior in C++ (slicing with an
out-of-range nearest index, out-of-range pose accesses). -/
noncomputable def readjustGlobalPlanLocally (curr_robot_pose : PoseStamped)
    (pcl_curr : List PointXYZ) (reference_traj : List PoseStamped)
    (inflate_y_cropping : ℝ := 0.3) (inflate_z_cropping : ℝ := 0.3)
    (look_ahead_waypints : ℤ := 10) : Option (List PoseStamped) :=
  let robot_yaw := curr_robot_pose.yaw
  let nearest := nearestStateIndex reference_traj curr_robot_pose
  let lg := clampGt (nearest + look_ahead_waypints) reference_traj.length
  match sliceVector reference_traj nearest lg with
  | none => none
  | some poses_in_vicinity =>
    if ∃ p ∈ poses_in_vicinity, 0.4 < |cppFmod p.yaw Real.pi| then
      -- a segment is not in row: early return, path untouched
      some reference_traj
    else
      match idx reference_traj nearest, idx reference_traj lg with
      | some pn, some pl =>
        let mn : PointXYZ :=
          if |robot_yaw| < 0.4 then
            ⟨pn.x, pn.y - inflate_y_cropping, pn.z - inflate_z_cropping⟩
          else
            ⟨pl.x, pl.y - inflate_y_cropping, pl.z - inflate_z_cropping⟩
        let mx : PointXYZ :=
          if |robot_yaw| < 0.4 then
            ⟨pl.x, pl.y + inflate_y_cropping, pl.z + inflate_z_cropping⟩
          else
            ⟨pn.x, pn.y + inflate_y_cropping, pn.z + inflate_z_cropping⟩
        let croppped_live_cloud := cropBox pcl_curr mn mx
        let center := computeCentroid croppped_live_cloud
        some (recenterLoop center nearest lg 0 reference_traj)
      | _, _ => none

/-! ### Concrete scenario inputs -/

/-- The origin robot pose used by several concrete scenarios. -/
def originPose : PoseStamped := ⟨0, 0, 0, 0⟩

/-- A two-pose path whose second pose is strictly nearer to the origin than
its first. -/
def pathC3 : List PoseStamped := [⟨1.9, 0, 0, 0⟩, ⟨1.5, 0, 0, 0⟩]

/-- A single-pose path: its computed average spacing is zero. -/
def pathC4 : List PoseStamped := [⟨1, 0, 0, 0⟩]

/-- The straight 11-pose unit-spaced path of the C8 scenario. -/
def pathC8 : List PoseStamped :=
  [⟨0, 0, 0, 0⟩, ⟨1, 0, 0, 0⟩, ⟨2, 0, 0, 0⟩, ⟨3, 0, 0, 0⟩, ⟨4, 0, 0, 0⟩,
   ⟨5, 0, 0, 0⟩, ⟨6, 0, 0, 0⟩, ⟨7, 0, 0, 0⟩, ⟨8, 0, 0, 0⟩, ⟨9, 0, 0, 0⟩,
   ⟨10, 0, 0, 0⟩]

/-- A two-pose path whose poses coincide: its total arc length, and hence
its computed average spacing, is zero. -/
def pathC1 : List PoseStamped := [⟨1, 0, 0, 0⟩, ⟨1, 0, 0, 0⟩]

/-- The two-pose unit-spaced path used by the C1 and C7 witnesses. -/
def pathW : List PoseStamped := [⟨0, 0, 0, 0⟩, ⟨1, 0, 0, 0⟩]

/-- The default parameters with horizon `N = 2`. -/
def paramsN2 : Parameters := { defaultParameters with N := 2 }

/-- The single-pose path with heading `1.2` rad used by the C6 witness. -/
def pathC6 : List PoseStamped := [⟨0, 0, 0, 1.2⟩]

/-- The single-pose path at the origin used by the C10 witness. -/
def pathC10 : List PoseStamped := [⟨0, 0, 0, 0⟩]

/-- The aligned two-pose row path at lateral offset `y = 5` used for C5. -/
def pathC5 : List PoseStamped := [⟨0, 5, 0, 0⟩, ⟨1, 5, 0, 0⟩]

/-- The robot pose sitting on the first pose of `pathC5`. -/
def robotC5 : PoseStamped := ⟨0, 5, 0, 0⟩

/-! ### Helper lemmas -/

theorem cppTrunc_of_nonneg {x : ℝ} (h : 0 ≤ x) : cppTrunc x = ⌊x⌋ := by
  simp [cppTrunc, h]

theorem dist_same_y (a b : PoseStamped) (h : a.y = b.y) :
    getEuclidianDistBetweenPoses a b = |a.x - b.x| := by
  simp [getEuclidianDistBetweenPoses, h, Real.sqrt_sq_eq_abs]

theorem clampGe_eq (lg : ℤ) (size : ℕ) (h1 : 1 ≤ size) (h2 : (size : ℤ) ≤ 2 ^ 31)
    (h3 : -(2 ^ 31) ≤ lg) (h4 : lg ≤ 2 ^ 31) :
    clampGe lg size = if ((size : ℤ) - 1 ≤ lg ∨ lg < 0) then (size : ℤ) - 1 else lg := by
  unfold clampGe sizeT intOfSizeT
  split <;> split <;> omega

theorem clampGt_eq (lg : ℤ) (size : ℕ) (h1 : 1 ≤ size) (h2 : (size : ℤ) ≤ 2 ^ 31)
    (h3 : -(2 ^ 31) ≤ lg) (h4 : lg ≤ 2 ^ 31) :
    clampGt lg size = if ((size : ℤ) - 1 < lg ∨ lg < 0) then (size : ℤ) - 1 else lg := by
  unfold clampGt sizeT intOfSizeT
  split <;> split <;> omega

/-! ### C9 — SpeedLimiter -/

/-- C9: for every commanded velocity `v` and every `Parameters` with
`V_MIN ≤ V_MAX`, `regulateMaxSpeed` produces a value in `[V_MIN, V_MAX]`,
and that value equals `v` whenever `v` already lies in the range; the
function is total by construction. -/
theorem C9_regulateMaxSpeed_clamps (v : ℝ) (P : Parameters)
    (h : P.V_MIN ≤ P.V_MAX) :
    P.V_MIN ≤ regulateMaxSpeed v P ∧ regulateMaxSpeed v P ≤ P.V_MAX ∧
      (P.V_MIN ≤ v → v ≤ P.V_MAX → regulateMaxSpeed v P = v) := by
  unfold regulateMaxSpeed
  split
  · exact ⟨h, le_refl _, fun _ hv => absurd hv (by linarith)⟩
  · split
    · exact ⟨le_refl _, h, fun hv _ => absurd hv (by linarith)⟩
    · exact ⟨by linarith, by linarith, fun _ _ => rfl⟩

/-- Witness for C9 at `v = 3` with the default parameter bounds
`[-10, 10]`. -/
theorem C9_witness :
    defaultParameters.V_MIN ≤ defaultParameters.V_MAX ∧
      (defaultParameters.V_MIN ≤ regulateMaxSpeed 3 defaultParameters ∧
        regulateMaxSpeed 3 defaultParameters ≤ defaultParameters.V_MAX ∧
        (defaultParameters.V_MIN ≤ 3 → (3 : ℝ) ≤ defaultParameters.V_MAX →
          regulateMaxSpeed 3 defaultParameters = 3)) :=
  ⟨by norm_num [defaultParameters],
   C9_regulateMaxSpeed_clamps 3 defaultParameters (by norm_num [defaultParameters])⟩

/-! ### C3 — NearestStateLocator -/

/-- C3 failing input: on the path `[(1.9, 0), (1.5, 0)]` with the robot at
the origin, `nearestStateIndex` returns index `0` even though pose `1` is
strictly nearer (distance `1.5 < 1.9`): after visiting pose `0` the
`int`-typed accumulator holds `trunc 1.9 = 1`, and `1.5 < 1` fails. -/
theorem C3_nearestStateIndex_not_minimal :
    nearestStateIndex pathC3 originPose = 0 ∧
      getEuclidianDistBetweenPoses ⟨1.5, 0, 0, 0⟩ originPose <
        getEuclidianDistBetweenPoses ⟨1.9, 0, 0, 0⟩ originPose := by
  constructor
  · have e1 : |(19 / 10 : ℝ)| = 19 / 10 := abs_of_pos (by norm_num)
    have e2 : |(3 / 2 : ℝ)| = 3 / 2 := abs_of_pos (by norm_num)
    have e3 : ⌊(19 / 10 : ℝ)⌋ = 1 := by
      rw [Int.floor_eq_iff]
      norm_num
    norm_num [nearestStateIndex, pathC3, originPose, nearestAux, dist_same_y,
      cppTrunc_of_nonneg, e1, e2, e3]
  · rw [dist_same_y ⟨1.5, 0, 0, 0⟩ originPose rfl,
      dist_same_y ⟨1.9, 0, 0, 0⟩ originPose rfl]
    norm_num [originPose, abs_of_pos]

/-! ### C4 and C8 — HorizonWindowPlanner -/


/-- C4 failing input: on a single-pose path the computed average spacing is
`0`, and the source divides the lookahead distance by it with no guard —
the IEEE quotient is an infinity whose `int` conversion is undefined
behavior (`none`); the local-goal index never collapses to the last valid
index. -/
theorem C4_division_by_zero_spacing_unguarded :
    interpolationStepSize pathC4 = 0 ∧
      localGoalStateIndex pathC4 originPose 5 = none ∧
      getLocalInterpolatedReferenceStates originPose defaultParameters pathC4 5 = none := by
  have hstep : interpolationStepSize pathC4 = 0 := by
    norm_num [interpolationStepSize, pathC4, pathEuclidianLength]
  have hlg : localGoalStateIndex pathC4 originPose 5 = none := by
    simp [localGoalStateIndex, lookaheadCount, hstep]
  refine ⟨hstep, hlg, ?_⟩
  simp [getLocalInterpolatedReferenceStates, hlg]


theorem pathC8_length : pathEuclidianLength pathC8 = 10 := by
  norm_num [pathC8, pathEuclidianLength, dist_same_y, abs_of_pos]

/-- C8 counterexample: on the 11-pose scenario path the computed average
spacing is the total arc length `10` divided by the point count `11`,
which is not the claimed `1.0`. -/
theorem C8_spacing_not_one : interpolationStepSize pathC8 ≠ 1 := by
  rw [interpolationStepSize, pathC8_length]
  norm_num [pathC8]

/-- C8 amended: on the scenario path with the robot at the origin and
lookahead distance `5`, the nearest-state index is `0`, the average
spacing is `10 / 11` (arc length over point count), the lookahead waypoint
count is `5` (the truncation of `5 / (10/11) = 5.5`), and the local-goal
index is `5`. -/
theorem C8_window_scenario :
    nearestStateIndex pathC8 originPose = 0 ∧
      interpolationStepSize pathC8 = 10 / 11 ∧
      lookaheadCount 5 (interpolationStepSize pathC8) = some 5 ∧
      localGoalStateIndex pathC8 originPose 5 = some 5 := by
  have hstep : interpolationStepSize pathC8 = 10 / 11 := by
    rw [interpolationStepSize, pathC8_length]
    norm_num [pathC8]
  have hnear : nearestStateIndex pathC8 originPose = 0 := by
    norm_num [nearestStateIndex, pathC8, originPose, nearestAux, dist_same_y,
      cppTrunc_of_nonneg, abs_of_pos, abs_of_nonneg]
  have hfloor : ⌊(11 / 2 : ℝ)⌋ = 5 := by
    rw [Int.floor_eq_iff]
    norm_num
  have hcount : lookaheadCount 5 (interpolationStepSize pathC8) = some 5 := by
    rw [hstep]
    norm_num [lookaheadCount, doubleToInt, cppTrunc_of_nonneg]
  refine ⟨hnear, hstep, hcount, ?_⟩
  rw [localGoalStateIndex, hcount]
  simp only [Option.map_some', hnear]
  norm_num [clampGe, sizeT, intOfSizeT, pathC8]

/-! ### C2 — ObstacleSetNormalizer -/

/-- C2: for every obstacle list `L`, robot pose and target count `K > 0`,
`trimObstaclesToN` returns exactly `K` records; when `|L| < K` the output
is `L` itself (original order) followed by `K - |L|` ghost obstacles at the
far-away sentinel coordinate with the minimal box shape; when `K ≤ |L|`
every output obstacle is drawn from `L` and the output distances to the
robot are non-decreasing.  The source list is untouched: the C++ sorts a
copy behind a fresh `shared_ptr`, and the embedding is a pure function. -/
theorem C2_trimObstaclesToN_normalizes (L : List Object) (robot : PoseStamped)
    (K : ℕ) (hK : 0 < K) :
    (trimObstaclesToN L robot K).length = K ∧
      (L.length < K →
        trimObstaclesToN L robot K =
          L ++ List.replicate (K - L.length) ghostObstacle) ∧
      (K ≤ L.length →
        (∀ o ∈ trimObstaclesToN L robot K, o ∈ L) ∧
          (trimObstaclesToN L robot K).Pairwise
            (fun a b => getEuclidianDistBetweenPoints a robot ≤
              getEuclidianDistBetweenPoints b robot)) := by
  by_cases h : L.length < K
  · have he : trimObstaclesToN L robot K =
        L ++ List.replicate (K - L.length) ghostObstacle := by
      rw [trimObstaclesToN, if_pos h]
    refine ⟨?_, fun _ => he, fun hle => absurd hle (by omega)⟩
    rw [he, List.length_append, List.length_replicate]
    omega
  · have he : trimObstaclesToN L robot K =
        ((sortedIndices L robot).take K).map (fun i => L.getD i ghostObstacle) := by
      rw [trimObstaclesToN, if_neg h]
    have hlen : (sortedIndices L robot).length = L.length := by
      rw [sortedIndices, List.length_insertionSort, List.length_range]
    have hmemidx : ∀ i ∈ (sortedIndices L robot).take K, i < L.length := by
      intro i hi
      have hmem := (List.take_sublist K (sortedIndices L robot)).subset hi
      rw [sortedIndices, List.mem_insertionSort, List.mem_range] at hmem
      exact hmem
    have hgetD : ∀ i, i < L.length → L.getD i ghostObstacle ∈ L := by
      intro i hiL
      rw [List.getD_eq_getElem?_getD, List.getElem?_eq_getElem hiL, Option.getD_some]
      exact List.getElem_mem hiL
    refine ⟨?_, fun hlt => absurd hlt (by omega), fun _ => ⟨?_, ?_⟩⟩
    · rw [he, List.length_map, List.length_take, hlen]
      omega
    · intro o ho
      rw [he] at ho
      rcases List.mem_map.mp ho with ⟨i, hi, rfl⟩
      exact hgetD i (hmemidx i hi)
    · have hdval : ∀ i, i < L.length →
          (obstacleDistances L robot).getD i 0 =
            getEuclidianDistBetweenPoints (L.getD i ghostObstacle) robot := by
        intro i hiL
        rw [obstacleDistances, List.getD_eq_getElem?_getD,
          List.getElem?_map (fun o => getEuclidianDistBetweenPoints o robot) L i,
          List.getElem?_eq_getElem hiL, List.getD_eq_getElem?_getD,
          List.getElem?_eq_getElem hiL]
        rfl
      haveI : IsTotal ℕ (fun a b : ℕ => (obstacleDistances L robot).getD a 0 ≤
          (obstacleDistances L robot).getD b 0) := ⟨fun _ _ => le_total _ _⟩
      haveI : IsTrans ℕ (fun a b : ℕ => (obstacleDistances L robot).getD a 0 ≤
          (obstacleDistances L robot).getD b 0) := ⟨fun _ _ _ hab hbc => le_trans hab hbc⟩
      have hsorted : (sortedIndices L robot).Pairwise
          (fun a b : ℕ => (obstacleDistances L robot).getD a 0 ≤
            (obstacleDistances L robot).getD b 0) := by
        rw [sortedIndices]
        exact List.sorted_insertionSort _ _
      have htake := hsorted.sublist (List.take_sublist K (sortedIndices L robot))
      rw [he, List.pairwise_map]
      refine htake.imp_of_mem ?_
      intro a b ha hb hab
      rw [← hdval a (hmemidx a ha), ← hdval b (hmemidx b hb)]
      exact hab

/-- Witness for C2 at the empty obstacle list and `K = 1`: the output has
length exactly `1`. -/
theorem C2_witness :
    (0 < 1) ∧ (trimObstaclesToN [] originPose 1).length = 1 :=
  ⟨by norm_num, (C2_trimObstaclesToN_normalizes [] originPose 1 (by norm_num)).1⟩

/-! ### C1 and C7 — ReferenceInterpolator -/

theorem nearestAux_lt (robot : PoseStamped) :
    ∀ (l : List PoseStamped) (i : ℕ) (b d : ℤ), b < (i : ℤ) →
      nearestAux robot l i b d < (i : ℤ) + l.length := by
  intro l
  induction l with
  | nil =>
    intro i b d hb
    rw [nearestAux]
    simpa using by omega
  | cons p rest ih =>
    intro i b d hb
    rw [nearestAux]
    have h1 := ih (i + 1) (i : ℤ) (cppTrunc (getEuclidianDistBetweenPoses p robot))
      (by push_cast; omega)
    have h2 := ih (i + 1) b d (by push_cast; omega)
    split
    · refine h1.trans_le ?_
      simp only [List.length_cons]
      push_cast
      omega
    · refine h2.trans_le ?_
      simp only [List.length_cons]
      push_cast
      omega

/-- The index returned by `nearestStateIndex` is below the path length. -/
theorem nearestStateIndex_lt (traj : List PoseStamped) (robot : PoseStamped) :
    nearestStateIndex traj robot < (traj.length : ℤ) := by
  have := nearestAux_lt robot traj 0 (-1) 10000 (by norm_num)
  simpa [nearestStateIndex] using this

theorem idx_eq_some {α : Type} (l : List α) (i : ℤ) (h0 : 0 ≤ i)
    (h1 : i < (l.length : ℤ)) : ∃ p, idx l i = some p := by
  rw [idx, if_pos h0]
  have hlt : i.toNat < l.length := by omega
  rw [List.get?_eq_get hlt]
  exact ⟨_, rfl⟩

theorem interpolateCurve_length (a b : CurvePt) (n : ℤ) (hn : 2 ≤ n) :
    (interpolateCurve a b n).length = n.toNat := by
  rw [interpolateCurve]
  by_cases h : n ≤ 2
  · rw [if_pos h]
    have h2 : n = 2 := le_antisymm h hn
    subst h2
    rfl
  · rw [if_neg h]
    rw [List.length_cons, List.length_append, List.length_map, List.length_range,
      List.length_singleton]
    omega

theorem interpolateCurve_head (a b : CurvePt) (n : ℤ) :
    (interpolateCurve a b n).head? = some a := by
  rw [interpolateCurve]
  split <;> rfl

theorem interpolateCurve_getLast (a b : CurvePt) (n : ℤ) :
    (interpolateCurve a b n).getLast? = some b := by
  rw [interpolateCurve]
  split
  · rfl
  · rw [← List.cons_append]
    exact List.getLast?_concat _


/-- C1 counterexample: the claim quantifies over every path with at least
two poses, but on a path of two coincident poses the computed spacing is
zero and the unguarded division makes the `int` conversion of the IEEE
quotient undefined behavior — no reference-state list of length `N` is
produced. -/
theorem C1_counterexample_duplicate_poses :
    getLocalInterpolatedReferenceStates originPose defaultParameters pathC1 5 = none := by
  have hstep : interpolationStepSize pathC1 = 0 := by
    norm_num [interpolationStepSize, pathC1, pathEuclidianLength, dist_same_y]
  have hlg : localGoalStateIndex pathC1 originPose 5 = none := by
    simp [localGoalStateIndex, lookaheadCount, hstep]
  simp [getLocalInterpolatedReferenceStates, hlg]

/-- C1 amended: for every path with at least two poses and positive
computed average spacing, every `Parameters` with `N ≥ 2`, every
nonnegative lookahead distance whose waypoint count fits an `int`, and a
robot pose for which the nearest-state search finds an index (some path
pose within the `10000` sentinel distance), the reference-state list is
produced and has length exactly `N`. -/
theorem C1_output_length_eq_N (robot : PoseStamped) (P : Parameters)
    (traj : List PoseStamped) (lookahead : ℝ)
    (hlen : 2 ≤ traj.length) (hN : 2 ≤ P.N)
    (hstep : 0 < interpolationStepSize traj) (hla : 0 ≤ lookahead)
    (hfit : (traj.length : ℝ) + lookahead / interpolationStepSize traj < 2 ^ 31)
    (hnear : 0 ≤ nearestStateIndex traj robot) :
    ∃ out, getLocalInterpolatedReferenceStates robot P traj lookahead = some out ∧
      (out.length : ℤ) = P.N := by
  have hq0 : 0 ≤ lookahead / interpolationStepSize traj := div_nonneg hla hstep.le
  have hlen0 : (0 : ℝ) ≤ (traj.length : ℝ) := Nat.cast_nonneg _
  have hq31 : lookahead / interpolationStepSize traj < 2 ^ 31 := by linarith
  have hfl : cppTrunc (lookahead / interpolationStepSize traj) =
      ⌊lookahead / interpolationStepSize traj⌋ := cppTrunc_of_nonneg hq0
  have hs0 : 0 ≤ ⌊lookahead / interpolationStepSize traj⌋ := Int.floor_nonneg.mpr hq0
  have hs31 : ⌊lookahead / interpolationStepSize traj⌋ < 2 ^ 31 := by
    have h1 : (⌊lookahead / interpolationStepSize traj⌋ : ℝ) < 2 ^ 31 :=
      lt_of_le_of_lt (Int.floor_le _) hq31
    exact_mod_cast h1
  have hcount : lookaheadCount lookahead (interpolationStepSize traj) =
      some ⌊lookahead / interpolationStepSize traj⌋ := by
    rw [lookaheadCount, if_neg (ne_of_gt hstep), doubleToInt, hfl,
      if_pos (⟨by omega, by omega⟩ :
        -(2 ^ 31) ≤ ⌊lookahead / interpolationStepSize traj⌋ ∧
          ⌊lookahead / interpolationStepSize traj⌋ ≤ 2 ^ 31 - 1)]
  have hlg : localGoalStateIndex traj robot lookahead =
      some (clampGe (nearestStateIndex traj robot +
        ⌊lookahead / interpolationStepSize traj⌋) traj.length) := by
    rw [localGoalStateIndex, hcount]
    rfl
  have hnlt := nearestStateIndex_lt traj robot
  have hlen31 : (traj.length : ℤ) ≤ 2 ^ 31 := by
    have h1 : (traj.length : ℝ) < 2 ^ 31 := by linarith
    have h2 : (traj.length : ℤ) < 2 ^ 31 := by exact_mod_cast h1
    omega
  have hsum : (traj.length : ℤ) + ⌊lookahead / interpolationStepSize traj⌋ ≤ 2 ^ 31 := by
    have h1 : ((traj.length : ℤ) + ⌊lookahead / interpolationStepSize traj⌋ : ℝ) < 2 ^ 31 := by
      push_cast
      have := Int.floor_le (lookahead / interpolationStepSize traj)
      linarith
    have h2 : (traj.length : ℤ) + ⌊lookahead / interpolationStepSize traj⌋ < 2 ^ 31 := by
      exact_mod_cast h1
    omega
  have hlgeq := clampGe_eq (nearestStateIndex traj robot +
      ⌊lookahead / interpolationStepSize traj⌋) traj.length (by omega) hlen31
    (by omega) (by omega)
  have hlgb : 0 ≤ clampGe (nearestStateIndex traj robot +
        ⌊lookahead / interpolationStepSize traj⌋) traj.length ∧
      clampGe (nearestStateIndex traj robot +
        ⌊lookahead / interpolationStepSize traj⌋) traj.length < (traj.length : ℤ) := by
    rw [hlgeq]
    split <;> omega
  obtain ⟨g, hg⟩ := idx_eq_some traj _ hlgb.1 hlgb.2
  by_cases hcase : clampGe (nearestStateIndex traj robot +
      ⌊lookahead / interpolationStepSize traj⌋) traj.length -
        nearestStateIndex traj robot < P.N
  · have heq : getLocalInterpolatedReferenceStates robot P traj lookahead =
        some ((interpolateCurve ⟨robot.x, robot.y, robot.yaw⟩ ⟨g.x, g.y, g.yaw⟩
          P.N).map (curveToState P)) := by
      rw [getLocalInterpolatedReferenceStates, hlg]
      simp only [if_pos hcase, hg]
    refine ⟨_, heq, ?_⟩
    rw [List.length_map, interpolateCurve_length _ _ _ hN]
    omega
  · obtain ⟨pn, hpn⟩ := idx_eq_some traj _ hnear hnlt
    have heq : getLocalInterpolatedReferenceStates robot P traj lookahead =
        some ((interpolateCurve ⟨pn.x, pn.y, pn.yaw⟩ ⟨g.x, g.y, g.yaw⟩
          P.N).map (curveToState P)) := by
      rw [getLocalInterpolatedReferenceStates, hlg]
      simp only [if_neg hcase, hpn, Option.map_some', hg]
    refine ⟨_, heq, ?_⟩
    rw [List.length_map, interpolateCurve_length _ _ _ hN]
    omega

theorem pathW_step : interpolationStepSize pathW = 1 / 2 := by
  norm_num [interpolationStepSize, pathW, pathEuclidianLength, dist_same_y, abs_of_pos]

theorem pathW_nearest : nearestStateIndex pathW originPose = 0 := by
  norm_num [nearestStateIndex, pathW, originPose, nearestAux, dist_same_y,
    cppTrunc_of_nonneg, abs_of_pos, abs_of_nonneg]

/-- Witness for C1: the two-pose unit path, `N = 2`, lookahead `1`. -/
theorem C1_witness :
    (2 ≤ pathW.length ∧ 2 ≤ paramsN2.N ∧ 0 < interpolationStepSize pathW ∧
      (0 : ℝ) ≤ 1 ∧ (pathW.length : ℝ) + 1 / interpolationStepSize pathW < 2 ^ 31 ∧
      0 ≤ nearestStateIndex pathW originPose) ∧
      ∃ out, getLocalInterpolatedReferenceStates originPose paramsN2 pathW 1 = some out ∧
        (out.length : ℤ) = paramsN2.N := by
  refine ⟨⟨by norm_num [pathW], by norm_num [paramsN2, defaultParameters],
    by rw [pathW_step]; norm_num, by norm_num,
    by rw [pathW_step]; norm_num [pathW], by rw [pathW_nearest]⟩, ?_⟩
  exact C1_output_length_eq_N originPose paramsN2 pathW 1 (by norm_num [pathW])
    (by norm_num [paramsN2, defaultParameters]) (by rw [pathW_step]; norm_num)
    (by norm_num) (by rw [pathW_step]; norm_num [pathW]) (by rw [pathW_nearest])

/-- C7: whenever `getLocalInterpolatedReferenceStates` produces a state
list, its first state carries the current vehicle pose (planar position
and yaw) exactly when the gap between the computed local-goal index and
the nearest-state index is smaller than `N`, and the path pose at the
nearest-state index otherwise; the final state always carries the path
pose at the local-goal index. -/
theorem C7_anchor_selection (robot : PoseStamped) (P : Parameters)
    (traj : List PoseStamped) (lookahead : ℝ) (lg : ℤ) (out : List States)
    (hlg : localGoalStateIndex traj robot lookahead = some lg)
    (hout : getLocalInterpolatedReferenceStates robot P traj lookahead = some out) :
    (lg - nearestStateIndex traj robot < P.N →
      out.head? = some ⟨robot.x, robot.y, 0, robot.yaw, P.V_MAX⟩) ∧
    (¬ lg - nearestStateIndex traj robot < P.N →
      ∃ pn, idx traj (nearestStateIndex traj robot) = some pn ∧
        out.head? = some ⟨pn.x, pn.y, 0, pn.yaw, P.V_MAX⟩) ∧
    (∃ pg, idx traj lg = some pg ∧
      out.getLast? = some ⟨pg.x, pg.y, 0, pg.yaw, P.V_MAX⟩) := by
  rw [getLocalInterpolatedReferenceStates, hlg] at hout
  by_cases hcase : lg - nearestStateIndex traj robot < P.N
  · simp only [if_pos hcase] at hout
    cases hg : idx traj lg with
    | none =>
      rw [hg] at hout
      exact absurd hout (by simp)
    | some g =>
      rw [hg] at hout
      have hrw : out = (interpolateCurve ⟨robot.x, robot.y, robot.yaw⟩
          ⟨g.x, g.y, g.yaw⟩ P.N).map (curveToState P) := by
        exact (Option.some_injective _ hout).symm
      refine ⟨fun _ => ?_, fun hc => absurd hcase hc, ⟨g, rfl, ?_⟩⟩
      · rw [hrw, List.head?_map, interpolateCurve_head]
        rfl
      · rw [hrw, List.getLast?_map, interpolateCurve_getLast]
        rfl
  · simp only [if_neg hcase] at hout
    cases hpn : idx traj (nearestStateIndex traj robot) with
    | none =>
      rw [hpn] at hout
      exact absurd hout (by simp)
    | some pn =>
      rw [hpn] at hout
      simp only [Option.map_some'] at hout
      cases hg : idx traj lg with
      | none =>
        rw [hg] at hout
        exact absurd hout (by simp)
      | some g =>
        rw [hg] at hout
        have hrw : out = (interpolateCurve ⟨pn.x, pn.y, pn.yaw⟩
            ⟨g.x, g.y, g.yaw⟩ P.N).map (curveToState P) := by
          exact (Option.some_injective _ hout).symm
        refine ⟨fun hc => absurd hc hcase, fun _ => ⟨pn, rfl, ?_⟩, ⟨g, rfl, ?_⟩⟩
        · rw [hrw, List.head?_map, interpolateCurve_head]
          rfl
        · rw [hrw, List.getLast?_map, interpolateCurve_getLast]
          rfl

theorem pathW_localGoal : localGoalStateIndex pathW originPose 1 = some 1 := by
  have hcount : lookaheadCount 1 (interpolationStepSize pathW) = some 2 := by
    rw [pathW_step]
    norm_num [lookaheadCount, doubleToInt, cppTrunc_of_nonneg]
  rw [localGoalStateIndex, hcount]
  simp only [Option.map_some', pathW_nearest]
  norm_num [clampGe, sizeT, intOfSizeT, pathW]

theorem pathW_goalEval :
    getLocalInterpolatedReferenceStates originPose paramsN2 pathW 1 =
      some [⟨0, 0, 0, 0, 10⟩, ⟨1, 0, 0, 0, 10⟩] := by
  rw [getLocalInterpolatedReferenceStates, pathW_localGoal, pathW_nearest]
  norm_num [paramsN2, defaultParameters, idx, pathW,
    interpolateCurve, curveToState, originPose]

/-- Witness for C7 on the two-pose unit path with `N = 2` and lookahead
`1`: the local-goal index is `1`, the gap `1 - 0 < 2` selects the robot
pose as first anchor, and the produced first and last states carry the
robot pose and the local-goal path pose. -/
theorem C7_witness :
    (localGoalStateIndex pathW originPose 1 = some 1 ∧
      getLocalInterpolatedReferenceStates originPose paramsN2 pathW 1 =
        some [⟨0, 0, 0, 0, 10⟩, ⟨1, 0, 0, 0, 10⟩]) ∧
    (((1 : ℤ) - nearestStateIndex pathW originPose < paramsN2.N →
        ([⟨0, 0, 0, 0, 10⟩, ⟨1, 0, 0, 0, 10⟩] : List States).head? =
          some ⟨originPose.x, originPose.y, 0, originPose.yaw, paramsN2.V_MAX⟩) ∧
      (¬ (1 : ℤ) - nearestStateIndex pathW originPose < paramsN2.N →
        ∃ pn, idx pathW (nearestStateIndex pathW originPose) = some pn ∧
          ([⟨0, 0, 0, 0, 10⟩, ⟨1, 0, 0, 0, 10⟩] : List States).head? =
            some ⟨pn.x, pn.y, 0, pn.yaw, paramsN2.V_MAX⟩) ∧
      (∃ pg, idx pathW 1 = some pg ∧
        ([⟨0, 0, 0, 0, 10⟩, ⟨1, 0, 0, 0, 10⟩] : List States).getLast? =
          some ⟨pg.x, pg.y, 0, pg.yaw, paramsN2.V_MAX⟩)) :=
  ⟨⟨pathW_localGoal, pathW_goalEval⟩,
   C7_anchor_selection originPose paramsN2 pathW 1 1
     [⟨0, 0, 0, 0, 10⟩, ⟨1, 0, 0, 0, 10⟩] pathW_localGoal pathW_goalEval⟩

/-! ### C6, C10 and C5 — RowAlignmentCorrector -/

theorem cppFmod_of_lt_pi {x : ℝ} (h0 : 0 ≤ x) (hx : x < Real.pi) :
    cppFmod x Real.pi = x := by
  have hpi := Real.pi_pos
  have h1 : cppTrunc (x / Real.pi) = 0 := by
    rw [cppTrunc_of_nonneg (div_nonneg h0 hpi.le), Int.floor_eq_zero_iff]
    exact ⟨div_nonneg h0 hpi.le, (div_lt_one hpi).mpr hx⟩
  rw [cppFmod, h1]
  ring

theorem recenterLoop_length (center : PointXYZ) (a b : ℤ) :
    ∀ (j : ℕ) (l : List PoseStamped), (recenterLoop center a b j l).length = l.length := by
  intro j l
  induction l generalizing j with
  | nil => rfl
  | cons p rest ih => simp [recenterLoop, ih]

theorem recenterLoop_get (center : PointXYZ) (a b : ℤ) :
    ∀ (l : List PoseStamped) (j i : ℕ),
      (recenterLoop center a b j l).get? i =
        (l.get? i).map (fun p =>
          if a ≤ ((j + i : ℕ) : ℤ) ∧ ((j + i : ℕ) : ℤ) ≤ b then
            { p with y := p.y - (p.y - center.y), z := p.z - (p.z - center.z) }
          else p) := by
  intro l
  induction l with
  | nil =>
    intro j i
    simp [recenterLoop]
  | cons p rest ih =>
    intro j i
    cases i with
    | zero =>
      simp [recenterLoop]
    | succ k =>
      rw [recenterLoop, List.get?_cons_succ, ih (j + 1) k,
        show (j + 1) + k = j + (k + 1) from by omega, List.get?_cons_succ]

/-- C6: if any pose of the extracted inclusive slice has a heading whose
`fmod π` residue exceeds the `0.4` rad tolerance in absolute value, the
correction aborts for the tick without error and the entire path is
returned unmodified. -/
theorem C6_misaligned_slice_aborts (robot : PoseStamped) (cloud : List PointXYZ)
    (traj : List PoseStamped) (iy iz : ℝ) (law : ℤ) (vicinity : List PoseStamped)
    (hslice : sliceVector traj (nearestStateIndex traj robot)
      (clampGt (nearestStateIndex traj robot + law) traj.length) = some vicinity)
    (hbad : ∃ p ∈ vicinity, 0.4 < |cppFmod p.yaw Real.pi|) :
    readjustGlobalPlanLocally robot cloud traj iy iz law = some traj := by
  rw [readjustGlobalPlanLocally, hslice]
  simp only [if_pos hbad]


theorem pathC6_nearest : nearestStateIndex pathC6 originPose = 0 := by
  norm_num [nearestStateIndex, pathC6, originPose, nearestAux, dist_same_y,
    cppTrunc_of_nonneg]

theorem pathC6_slice :
    sliceVector pathC6 (nearestStateIndex pathC6 originPose)
      (clampGt (nearestStateIndex pathC6 originPose + 0) pathC6.length) =
        some [⟨0, 0, 0, 1.2⟩] := by
  rw [pathC6_nearest]
  norm_num [sliceVector, clampGt, sizeT, intOfSizeT, pathC6]

theorem pathC6_misaligned :
    ∃ p ∈ [(⟨0, 0, 0, 1.2⟩ : PoseStamped)], 0.4 < |cppFmod p.yaw Real.pi| := by
  refine ⟨_, List.mem_singleton_self _, ?_⟩
  have hfmod : cppFmod (1.2 : ℝ) Real.pi = 1.2 :=
    cppFmod_of_lt_pi (by norm_num) (by linarith [Real.pi_gt_three])
  show (0.4 : ℝ) < |cppFmod (1.2 : ℝ) Real.pi|
  rw [hfmod, abs_of_pos (by norm_num)]
  norm_num

/-- Witness for C6: a one-pose path with heading `1.2` rad; the sliced
segment fails the `0.4` tolerance and the path is returned unchanged. -/
theorem C6_witness :
    (sliceVector pathC6 (nearestStateIndex pathC6 originPose)
        (clampGt (nearestStateIndex pathC6 originPose + 0) pathC6.length) =
          some [⟨0, 0, 0, 1.2⟩] ∧
      ∃ p ∈ [(⟨0, 0, 0, 1.2⟩ : PoseStamped)], 0.4 < |cppFmod p.yaw Real.pi|) ∧
      readjustGlobalPlanLocally originPose [] pathC6 0.3 0.3 0 = some pathC6 :=
  ⟨⟨pathC6_slice, pathC6_misaligned⟩,
   C6_misaligned_slice_aborts originPose [] pathC6 0.3 0.3 0 [⟨0, 0, 0, 1.2⟩]
     pathC6_slice pathC6_misaligned⟩

/-- C10: whenever `readjustGlobalPlanLocally` completes, the path keeps its
length, every pose keeps its `x` position and its orientation (yaw), and
every pose outside the inclusive window between the computed nearest-state
index and the computed local-goal index is returned verbatim — only the
`y` and `z` positions of window poses can change.  (The other core
operations never write to the path: they take it by const reference.) -/
theorem C10_recentering_mutates_only_window_yz (robot : PoseStamped)
    (cloud : List PointXYZ) (traj : List PoseStamped) (iy iz : ℝ) (law : ℤ)
    (out : List PoseStamped)
    (hout : readjustGlobalPlanLocally robot cloud traj iy iz law = some out) :
    out.length = traj.length ∧
      ∀ i : ℕ, (out.get? i).map PoseStamped.x = (traj.get? i).map PoseStamped.x ∧
        (out.get? i).map PoseStamped.yaw = (traj.get? i).map PoseStamped.yaw ∧
        (¬ (nearestStateIndex traj robot ≤ (i : ℤ) ∧
            (i : ℤ) ≤ clampGt (nearestStateIndex traj robot + law) traj.length) →
          out.get? i = traj.get? i) := by
  rw [readjustGlobalPlanLocally] at hout
  cases hsl : sliceVector traj (nearestStateIndex traj robot)
      (clampGt (nearestStateIndex traj robot + law) traj.length) with
  | none =>
    rw [hsl] at hout
    exact absurd hout (by simp)
  | some vicinity =>
    rw [hsl] at hout
    dsimp only [] at hout
    by_cases hbad : ∃ p ∈ vicinity, 0.4 < |cppFmod p.yaw Real.pi|
    · rw [if_pos hbad] at hout
      have heq : traj = out := Option.some_injective _ hout
      subst heq
      exact ⟨rfl, fun i => ⟨rfl, rfl, fun _ => rfl⟩⟩
    · rw [if_neg hbad] at hout
      cases hpn : idx traj (nearestStateIndex traj robot) with
      | none =>
        rw [hpn] at hout
        exact absurd hout (by simp)
      | some pn =>
        cases hpl : idx traj
            (clampGt (nearestStateIndex traj robot + law) traj.length) with
        | none =>
          rw [hpn, hpl] at hout
          exact absurd hout (by simp)
        | some pl =>
          rw [hpn, hpl] at hout
          dsimp only [] at hout
          have heq : out = recenterLoop
              (computeCentroid (cropBox cloud
                (if |robot.yaw| < 0.4 then ⟨pn.x, pn.y - iy, pn.z - iz⟩
                  else ⟨pl.x, pl.y - iy, pl.z - iz⟩)
                (if |robot.yaw| < 0.4 then ⟨pl.x, pl.y + iy, pl.z + iz⟩
                  else ⟨pn.x, pn.y + iy, pn.z + iz⟩)))
              (nearestStateIndex traj robot)
              (clampGt (nearestStateIndex traj robot + law) traj.length) 0 traj :=
            (Option.some_injective _ hout).symm
          constructor
          · rw [heq, recenterLoop_length]
          · intro i
            rw [heq, recenterLoop_get]
            cases ht : traj.get? i with
            | none => exact ⟨rfl, rfl, fun _ => rfl⟩
            | some p =>
              simp only [Option.map_some']
              refine ⟨?_, ?_, ?_⟩
              · split <;> rfl
              · split <;> rfl
              · intro hnot
                rw [if_neg (by simpa using hnot)]


theorem pathC10_eval :
    readjustGlobalPlanLocally originPose [] pathC10 0.3 0.3 0 = some pathC10 := by
  have hnear : nearestStateIndex pathC10 originPose = 0 := by
    norm_num [nearestStateIndex, pathC10, originPose, nearestAux, dist_same_y,
      cppTrunc_of_nonneg]
  have hfmod : cppFmod (0 : ℝ) Real.pi = 0 := cppFmod_of_lt_pi le_rfl Real.pi_pos
  rw [readjustGlobalPlanLocally, hnear]
  norm_num [sliceVector, clampGt, sizeT, intOfSizeT, pathC10, idx, originPose,
    hfmod, cropBox, computeCentroid, recenterLoop]

/-- Witness for C10 on a single-pose path with an empty cloud: the
corrector completes and the conclusion of the window-mutation theorem
holds at that input. -/
theorem C10_witness :
    readjustGlobalPlanLocally originPose [] pathC10 0.3 0.3 0 = some pathC10 ∧
      (pathC10.length = pathC10.length ∧
        ∀ i : ℕ,
          (pathC10.get? i).map PoseStamped.x = (pathC10.get? i).map PoseStamped.x ∧
          (pathC10.get? i).map PoseStamped.yaw = (pathC10.get? i).map PoseStamped.yaw ∧
          (¬ (nearestStateIndex pathC10 originPose ≤ (i : ℤ) ∧
              (i : ℤ) ≤ clampGt (nearestStateIndex pathC10 originPose + 0)
                pathC10.length) →
            pathC10.get? i = pathC10.get? i)) :=
  ⟨pathC10_eval,
   C10_recentering_mutates_only_window_yz originPose [] pathC10 0.3 0.3 0 pathC10
     pathC10_eval⟩

/-- C5 failing input: with an empty live cloud the cropped cloud is empty
and the external centroid call leaves its default-constructed output at
the origin; the source performs no emptiness check, the recentering loop
runs anyway, and the slice poses at `y = 5` are rewritten to `y = 0` — the
path is not left unmodified. -/
theorem C5_empty_cloud_still_recenters :
    readjustGlobalPlanLocally robotC5 [] pathC5 0.3 0.3 10 =
      some [⟨0, 0, 0, 0⟩, ⟨1, 0, 0, 0⟩] := by
  have hnear : nearestStateIndex pathC5 robotC5 = 0 := by
    norm_num [nearestStateIndex, pathC5, robotC5, nearestAux, dist_same_y,
      cppTrunc_of_nonneg, abs_of_pos, abs_of_nonneg]
  have hfmod : cppFmod (0 : ℝ) Real.pi = 0 := cppFmod_of_lt_pi le_rfl Real.pi_pos
  rw [readjustGlobalPlanLocally, hnear]
  norm_num [sliceVector, clampGt, sizeT, intOfSizeT, pathC5, robotC5, idx,
    hfmod, cropBox, computeCentroid, recenterLoop]
  intro x hx
  have hx2 : x ∈ [(⟨0, 5, 0, 0⟩ : PoseStamped), ⟨1, 5, 0, 0⟩] :=
    List.take_subset _ _ hx
  simp only [List.mem_cons, List.mem_singleton, List.not_mem_nil, or_false] at hx2
  rcases hx2 with rfl | rfl <;> · simp only [hfmod]
                                  rw [abs_zero]
                                  norm_num
